import Mathlib

/-!
Verification of the GNA piecewise-linear (PWL) activation approximation in
`src/src/plugins/intel_gna/transformations/transpose_to_pwl.cpp`.

The numeric type of the source is IEEE-754 `double`.  It is embedded here as
`FP`: exact rational arithmetic extended with the special values NaN, plus
and minus infinity, with the IEEE propagation rules for those special values
(NaN is absorbing, opposite infinities cancel to NaN, division by zero gives
a signed infinity, comparisons with NaN are false).  Rounding of finite
values is not modelled: finite arithmetic is exact.  All control-flow claims
settled below depend on comparisons and special-value propagation, not on
rounding, and every concrete counterexample below uses only dyadic rationals
small enough that the corresponding `double` run performs the same exact
arithmetic.

The activation classes (`details::Function<T>`, header `ops/pwl.hpp`) and the
reference PWL evaluator (`ops/reference/pwl.hpp`) are not part of the staged
sources; following the specification they are modelled as explicit function
parameters `(f fd : FP → FP)` (value and first derivative) and a linear
segment lookup.  The per-kind traits `max_iterations`, `max_segments_number`,
the canonical domain bounds and `are_floats_equal` are likewise modelled from
the specification and marked as such.
-/

namespace GNAPwl

/-- The embedded `double`: exact rationals plus IEEE special values. -/
inductive FP where
  | nan : FP
  | pinf : FP
  | ninf : FP
  | fin : ℚ → FP
deriving DecidableEq, Repr

namespace FP

/-- IEEE negation. -/
def neg : FP → FP
  | nan => nan
  | pinf => ninf
  | ninf => pinf
  | fin q => fin (-q)

/-- IEEE addition: NaN absorbs, opposite infinities give NaN, finite addition exact. -/
def add : FP → FP → FP
  | nan, _ => nan
  | _, nan => nan
  | pinf, ninf => nan
  | pinf, _ => pinf
  | ninf, pinf => nan
  | ninf, _ => ninf
  | fin _, pinf => pinf
  | fin _, ninf => ninf
  | fin q, fin r => fin (q + r)

/-- IEEE subtraction, as addition of the negation. -/
def sub (a b : FP) : FP := a.add b.neg

/-- IEEE multiplication: NaN absorbs, infinity times zero gives NaN,
finite multiplication exact (the sign of zero is not modelled). -/
def mul : FP → FP → FP
  | nan, _ => nan
  | _, nan => nan
  | pinf, pinf => pinf
  | pinf, ninf => ninf
  | ninf, pinf => ninf
  | ninf, ninf => pinf
  | pinf, fin q => if q = 0 then nan else if 0 < q then pinf else ninf
  | ninf, fin q => if q = 0 then nan else if 0 < q then ninf else pinf
  | fin q, pinf => if q = 0 then nan else if 0 < q then pinf else ninf
  | fin q, ninf => if q = 0 then nan else if 0 < q then ninf else pinf
  | fin q, fin r => fin (q * r)

/-- IEEE division: NaN absorbs, infinity over infinity gives NaN, a finite
value over infinity gives zero, a nonzero value over zero gives a signed
infinity, zero over zero gives NaN; finite division exact. -/
def div : FP → FP → FP
  | nan, _ => nan
  | _, nan => nan
  | pinf, pinf => nan
  | pinf, ninf => nan
  | ninf, pinf => nan
  | ninf, ninf => nan
  | pinf, fin q => if 0 ≤ q then pinf else ninf
  | ninf, fin q => if 0 ≤ q then ninf else pinf
  | fin _, pinf => fin 0
  | fin _, ninf => fin 0
  | fin q, fin r =>
    if r = 0 then (if q = 0 then nan else if 0 < q then pinf else ninf)
    else fin (q / r)

/-- IEEE absolute value (`fabs`). -/
def abs : FP → FP
  | nan => nan
  | pinf => pinf
  | ninf => pinf
  | fin q => fin |q|

/-- IEEE strict comparison: every comparison with NaN is false. -/
def lt : FP → FP → Bool
  | nan, _ => false
  | _, nan => false
  | ninf, ninf => false
  | ninf, _ => true
  | fin _, ninf => false
  | fin q, fin r => decide (q < r)
  | fin _, pinf => true
  | pinf, _ => false

/-- IEEE `a > b`, which is `b < a`. -/
def gt (a b : FP) : Bool := lt b a

/-- IEEE equality: comparisons with NaN are false, everything else structural. -/
def feq : FP → FP → Bool
  | nan, _ => false
  | _, nan => false
  | a, b => decide (a = b)

/-- IEEE `a ≤ b`, which is `a < b ∨ a = b` for non-NaN operands. -/
def le (a b : FP) : Bool := lt a b || feq a b

/-- The `std::isnan` test. -/
def isnan : FP → Bool
  | nan => true
  | _ => false

/-- A test for either infinity. -/
def isinf : FP → Bool
  | pinf => true
  | ninf => true
  | _ => false

instance : Add FP := ⟨FP.add⟩
instance : Sub FP := ⟨FP.sub⟩
instance : Mul FP := ⟨FP.mul⟩
instance : Div FP := ⟨FP.div⟩
instance : Neg FP := ⟨FP.neg⟩
instance (n : Nat) : OfNat FP n := ⟨FP.fin n⟩

end FP

/-- One PWL segment `(m, b, alpha)`, the field order of the constructor of
`details::Pwl` used at line 364 of the source. -/
structure Pwl where
  m : FP
  b : FP
  alpha : FP
deriving DecidableEq, Repr

/-- The distinct `std::runtime_error` throws of the source file:
line 101/108 "The value is out of range.", lines 139 and 299 "Failed to
converge ...", line 359 "The unsupported type of element.", line 322
"The size of exponents is more than 1.". -/
inductive PwlErr where
  | domainError : PwlErr
  | notConverged : PwlErr
  | unsupportedType : PwlErr
  | sizeError : PwlErr
deriving DecidableEq, Repr

/-- Outcome of an embedded run: normal return, a thrown error, or fuel
exhaustion of the embedding (the source loop has no a-priori bound, so the
embedding iterates on explicit fuel; `fuelOut` decides nothing). -/
inductive PRes (α : Type) where
  | ok : α → PRes α
  | fail : PwlErr → PRes α
  | fuelOut : PRes α
deriving DecidableEq, Repr

/-! ## pivot_search (source lines 52-175)

The source keeps, per index `i` and iteration `j`, history arrays
`t[i][j]`, `alpha[i][j]`, `epsilon[i][j]`, `d[i][j]`.  The embedding stores
the same history as a list of columns (`tcols.getD j []` is the column of
tangent points `t[0..N-1]` at iteration `j`), together with the loop
variables `j`, `Delta`, `same_epsilon` and `max_epsilon` that survive
between iterations.  `d` is written and read within one iteration only and
is not part of the state. -/

/-- State of the `while (true)` loop of `pivot_search`. -/
structure PivotState where
  j : Nat
  delta : FP
  sameEpsilon : Bool
  maxEpsilon : FP
  tcols : List (List FP)
  alphaCols : List (List FP)
  epsCols : List (List FP)
deriving DecidableEq, Repr

/-- Write column `j` of a history, extending with empty columns if needed. -/
def setCol (cols : List (List FP)) (j : Nat) (c : List FP) : List (List FP) :=
  if j < cols.length then cols.set j c
  else cols ++ List.replicate (j - cols.length) [] ++ [c]

/-- The column `alpha[0..N][j]` of segment boundaries (source lines 84-93):
`alpha[0]` is pinned to `alpha_0`, `alpha[N]` to `alpha_N`, and each interior
`alpha[i]` is the intersection of the tangents at `t[i-1]` and `t[i]`. -/
def alphaCol (f fd : FP → FP) (alpha0 alphaN : FP) (tcol : List FP) : List FP :=
  alpha0 :: ((List.range (tcol.length - 1)).map (fun k =>
    let tp := tcol.getD k FP.nan
    let tc := tcol.getD (k + 1) FP.nan
    (f tp - f tc + fd tc * tc - fd tp * tp) / (fd tc - fd tp))
  ++ [alphaN])

/-- One signed error value (source lines 98-99 and 105-106):
`sgn * (f'(t) * (alpha - t) + f(t) - f(alpha))`. -/
def epsTerm (f fd : FP → FP) (sgn t a : FP) : FP :=
  sgn * (fd t * (a - t) + f t - f a)

/-- The column `epsilon[0..N][j]` (source lines 96-109): index `i < N` uses
`t[i]` and `alpha[i]`; the terminal index `N` uses `t[N-1]` and `alpha[N]`. -/
def epsCol (f fd : FP → FP) (sgn : FP) (tcol acol : List FP) : List FP :=
  (List.range tcol.length).map (fun i =>
    epsTerm f fd sgn (tcol.getD i FP.nan) (acol.getD i FP.nan))
  ++ [epsTerm f fd sgn (tcol.getD (tcol.length - 1) FP.nan) (acol.getD tcol.length FP.nan)]

/-- `max_epsilon` of a column (source lines 113-118): fold of `fabs` with the
IEEE `>` comparison, starting from the first element. -/
def colMaxAbs (ecol : List FP) : FP :=
  (ecol.drop 1).foldl (fun mx e => if FP.lt mx e.abs then e.abs else mx)
    ((ecol.getD 0 FP.nan).abs)

/-- `min_epsilon` of a column (source lines 113-118). -/
def colMinAbs (ecol : List FP) : FP :=
  (ecol.drop 1).foldl (fun mn e => if FP.lt e.abs mn then e.abs else mn)
    ((ecol.getD 0 FP.nan).abs)

/-- The spread completion test of line 119: `max - min < threshold * min`. -/
def spread_ok (threshold maxE minE : FP) : Bool :=
  FP.lt (maxE - minE) (threshold * minE)

/-- Segment emission on completion (source lines 120-137): for each `i < N`
the segment through the tangent at `t[i]` shifted by `-epsilon_final`, then
the terminal sentinel `(m, b, alpha) = (0, 0, alpha[N])`. -/
def emitSegments (f fd : FP → FP) (sgn epsFinal : FP) (tcol acol : List FP) : List Pwl :=
  (List.range tcol.length).map (fun i =>
    let vt := tcol.getD i FP.nan
    let ai := acol.getD i FP.nan
    let an := acol.getD (i + 1) FP.nan
    let val := sgn * fd vt * (ai - vt) + sgn * f vt - epsFinal
    let valNext := sgn * fd vt * (an - vt) + sgn * f vt - epsFinal
    let m := (valNext - val) / (an - ai)
    ⟨m, val - m * ai, ai⟩)
  ++ [⟨0, 0, acol.getD tcol.length FP.nan⟩]

/-- The descent steps `d[0..N-1][j]` (source lines 160-164). -/
def dCol (delta : FP) (tcol acol ecol : List FP) : List FP :=
  (List.range tcol.length).map (fun i =>
    let ti := tcol.getD i FP.nan
    let e0 := ecol.getD i FP.nan
    let e1 := ecol.getD (i + 1) FP.nan
    delta * (e1 - e0) /
      (e1 / (acol.getD (i + 1) FP.nan - ti) + e0 / (ti - acol.getD i FP.nan)))

/-- The tangent-point update `t[i][j+1] = t[i][j] + d[i][j]` (lines 167-170). -/
def nextTCol (tcol dcol : List FP) : List FP :=
  (List.range tcol.length).map (fun i => tcol.getD i FP.nan + dcol.getD i FP.nan)

/-- The sign `sgn = negative ? -1 : 1` (source line 71). -/
def sgnOf (negative : Bool) : FP := if negative then FP.fin (-1) else 1

/-- The regress handling of source lines 144-157: revert `j` and halve
`Delta` when the new `max_epsilon` exceeds the previous one; on the second
consecutive exact tie (the `same_epsilon` flag) do the same.  Returns the
updated `(j, Delta, same_epsilon)`. -/
def regressJ (j : Nat) (delta : FP) (sameEpsilon : Bool)
    (maxEpsPrev maxE : FP) : Nat × FP × Bool :=
  if 0 < j then
    if FP.gt maxE maxEpsPrev then (j - 1, delta / 2, sameEpsilon)
    else if FP.feq maxE maxEpsPrev then
      if !sameEpsilon then (j, delta, true)
      else (j - 1, delta / 2, false)
    else (j, delta, sameEpsilon)
  else (j, delta, sameEpsilon)

/-- Result of one pass of the `while (true)` loop. -/
inductive PivotStep where
  | done : List Pwl → FP → PivotStep
  | fail : PwlErr → PivotStep
  | next : PivotState → PivotStep
deriving DecidableEq, Repr

/-- One pass of the `pivot_search` loop (source lines 82-174): compute the
`alpha` and `epsilon` columns at the current `j`; throw `domainError` when an
`epsilon` is NaN (lines 100-109; the guard is `std::isnan`); on the
completion test (line 119) either throw `notConverged` when `j` equals the
iteration cap (line 138) or emit segments; otherwise apply the regress rules
(lines 144-157), the descent step (lines 160-170) and advance `j`. -/
def pivotStep (f fd : FP → FP) (alpha0 alphaN : FP) (negative : Bool)
    (threshold : FP) (cap : Nat) (s : PivotState) : PivotStep :=
  let sgn := sgnOf negative
  let tcol := s.tcols.getD s.j []
  let acol := alphaCol f fd alpha0 alphaN tcol
  let ecol := epsCol f fd sgn tcol acol
  if ecol.any FP.isnan then .fail .domainError
  else
    let maxE := colMaxAbs ecol
    let minE := colMinAbs ecol
    if s.j == cap || spread_ok threshold maxE minE then
      if s.j == cap then .fail .notConverged
      else .done (emitSegments f fd sgn ((maxE + minE) / 4) tcol acol) ((maxE + minE) / 4)
    else
      let rgr := regressJ s.j s.delta s.sameEpsilon s.maxEpsilon maxE
      let aCols := setCol s.alphaCols s.j acol
      let eCols := setCol s.epsCols s.j ecol
      let j2 := rgr.1
      let tcol2 := s.tcols.getD j2 []
      let dcol := dCol rgr.2.1 tcol2 (aCols.getD j2 []) (eCols.getD j2 [])
      .next ⟨j2 + 1, rgr.2.1, rgr.2.2, maxE,
             setCol s.tcols (j2 + 1) (nextTCol tcol2 dcol), aCols, eCols⟩

/-- The initial state (source lines 61-80): `j = 0`, `Delta = 1`,
`max_epsilon = 0`, and the uniform seeding of the tangent points
`t[i][0] = alpha_0 + ((i+1)/(N+1)) * (alpha_N - alpha_0)`. -/
def pivotInit (N : Nat) (alpha0 alphaN : FP) : PivotState :=
  ⟨0, 1, false, 0,
   [(List.range N).map (fun i =>
      alpha0 + FP.fin ((i + 1 : Nat) : ℚ) / FP.fin ((N + 1 : Nat) : ℚ) * (alphaN - alpha0))],
   [], []⟩

/-- The `while (true)` loop, iterated on explicit fuel. -/
def pivotLoop (f fd : FP → FP) (alpha0 alphaN : FP) (negative : Bool)
    (threshold : FP) (cap : Nat) : Nat → PivotState → PRes (List Pwl × FP)
  | 0, _ => .fuelOut
  | fuel + 1, s =>
    match pivotStep f fd alpha0 alphaN negative threshold cap s with
    | .done segs e => .ok (segs, e)
    | .fail err => .fail err
    | .next s2 => pivotLoop f fd alpha0 alphaN negative threshold cap fuel s2

/-- The whole of `pivot_search` (source lines 52-175).  `maxError` is the
unused parameter `max_error` of the source; `cap` is the per-kind trait
`details::max_iterations<T>()` read at lines 119 and 138. -/
def pivot_search (f fd : FP → FP) (N : Nat) (alpha0 alphaN : FP) (negative : Bool)
    (maxError threshold : FP) (cap fuel : Nat) : PRes (List Pwl × FP) :=
  let _ := maxError
  pivotLoop f fd alpha0 alphaN negative threshold cap fuel (pivotInit N alpha0 alphaN)

/-! ## calculate_error_pct (source lines 177-214) -/

/-- Modelled from the spec: `runtime::reference::pwl` (header
`ops/reference/pwl.hpp`, not in the staged sources) evaluates the PWL by a
linear search over the segment boundaries: the segment used for `x` is the
last index `i` below the segment count with `alpha[i] <= x`, the first
segment when `x` lies below every boundary; the value is `m[i]*x + b[i]`. -/
def referencePwlEval (ms bs alphas : List FP) (x : FP) : FP :=
  let idx := (List.range ms.length).foldl
    (fun acc i => if FP.le (alphas.getD i FP.nan) x then i else acc) 0
  ms.getD idx FP.nan * x + bs.getD idx FP.nan

/-- The sampled inputs of `calculate_error_pct` (source lines 201-203):
`in[i] = lower_bound + i * delta` for `i < samples`, with
`delta = (upper_bound - lower_bound) / (samples + 1)`. -/
def errorSamples (lowerBound upperBound : FP) (samples : Nat) : List FP :=
  (List.range samples).map (fun (i : Nat) =>
    lowerBound + FP.fin (i : ℚ) * ((upperBound - lowerBound) / FP.fin ((samples : ℚ) + 1)))

/-- `calculate_error_pct` (source lines 177-214): returns 0 when `delta < 0`;
otherwise the maximum over the sampled inputs of
`|f(x) - sgn * pwl(x)|`, seeded at line 206 with
`|f(lower_bound) - sgn * out[0]|` where `out[0]` is the PWL value at
`in[0] = lower_bound + 0 * delta`.  The `offset` parameter is accepted and
ignored, as in the source. -/
def calculate_error_pct (f : FP → FP) (segments : List Pwl)
    (lowerBound upperBound offset : FP) (negative : Bool) (samples : Nat) : FP :=
  let _ := offset
  let sgn := sgnOf negative
  let delta := (upperBound - lowerBound) / FP.fin ((samples : ℚ) + 1)
  if FP.lt delta 0 then 0
  else
    let ms := segments.dropLast.map Pwl.m
    let bs := segments.dropLast.map Pwl.b
    let alphas := segments.map Pwl.alpha
    let dev := fun (x : FP) => (f x - sgn * referencePwlEval ms bs alphas x).abs
    (errorSamples lowerBound upperBound samples).foldl
      (fun mx x => if FP.lt mx (dev x) then dev x else mx)
      ((f lowerBound - sgn * referencePwlEval ms bs alphas
        (lowerBound + FP.fin ((0 : Nat) : ℚ) * delta)).abs)

/-! ## Activation kinds, traits and kind-dispatched helpers -/

/-- The activation node types matched by the pass (source lines 446-487). -/
inductive ActKind where
  | sigmoid : ActKind
  | tanh : ActKind
  | exp : ActKind
  | log : ActKind
  | softsign : ActKind
  | power : ActKind
  | powerIE : ActKind
deriving DecidableEq, Repr

/-- `get_break_bound<T>` (source lines 26-33): `EXP_BREAK = 0.045 = 9/200`
for Exp, 0 otherwise. -/
def get_break_bound (k : ActKind) : FP :=
  if k = .exp then FP.fin (9 / 200) else 0

/-- `split_search<T>` (source lines 35-50): false when `lower > upper`;
otherwise, for the five listed kinds, `lower < break ∧ upper > break`. -/
def split_search (k : ActKind) (lowerBound upperBound : FP) : Bool :=
  if FP.gt lowerBound upperBound then false
  else
    let bb := get_break_bound k
    if k = .sigmoid || k = .tanh || k = .softsign || k = .exp || k = .power then
      FP.lt lowerBound bb && FP.gt upperBound bb
    else false

/-- The truncation toward zero used by `std::fmod(x, 1.0)`. -/
def ratTrunc (q : ℚ) : ℤ := if q < 0 then -((-q).floor) else q.floor

/-- The embedded `std::fmod(x, 1.0)`: `x - trunc(x)` for finite `x`, NaN for
NaN and for infinities. -/
def fmodOne : FP → FP
  | FP.fin q => FP.fin (q - ratTrunc q)
  | _ => FP.nan

/-- `is_negative<T>` (source lines 216-234): upper bound equal to 0 for
Sigmoid, Tanh and SoftSign; always true for Exp; for Power the
specialization at line 231 tests `std::fmod(m_exponent, 1.0) == 0`,
ignoring the upper bound; false for every other kind.  `exponent` is the
`m_exponent` member of `details::Function<Power>`. -/
def is_negative (k : ActKind) (exponent upperBound : FP) : Bool :=
  match k with
  | .power => FP.feq (fmodOne exponent) 0
  | .sigmoid => FP.feq upperBound 0
  | .tanh => FP.feq upperBound 0
  | .softsign => FP.feq upperBound 0
  | .exp => true
  | _ => false

/-- `max_error<T>` (source lines 236-248): returns `allowed_err_pct`
unchanged; the Power specialization returns it in both branches of its
conditional. -/
def max_error (k : ActKind) (exponent allowedErrPct : FP) : FP :=
  let _ := k
  let _ := exponent
  allowedErrPct

/-- Modelled from the spec: the trait `details::max_iterations<T>()`
(header `ops/pwl.hpp`, not in the staged sources) — 2000, and 5000 for Log. -/
def max_iterations (k : ActKind) : Nat := if k = .log then 5000 else 2000

/-- Modelled from the spec: the trait `details::max_segments_number<T>()`
(header not in the staged sources) — 128 for every kind. -/
def max_segments_number (k : ActKind) : Nat :=
  let _ := k
  128

/-! ## The outer segment search (source lines 285-300) -/

/-- Outcome of the segment-count search together with the final
`segments_number` and `err_pct`, which the source keeps in locals. -/
structure SegOut where
  n : Nat
  errPct : FP
  res : PRes (List Pwl × FP)
deriving DecidableEq, Repr

/-- The `while` loop of lines 291-296 followed by the check of lines
298-300, parametrized by the trait value `maxSeg`: while
`segments_number < maxSeg` and the allowed error is below `err_pct`, grow
`segments_number`, rerun `pivot_search` and `calculate_error_pct`; on exit
throw `notConverged` whenever `segments_number >= maxSeg`. -/
def seg_loop_go (k : ActKind) (f fd : FP → FP)
    (exponent lowerBound upperBound allowedErrPct : FP) (negative : Bool)
    (maxSeg cap pivotFuel : Nat) :
    Nat → Nat → List Pwl → FP → SegOut
  | 0, n, _, errPct => ⟨n, errPct, .fuelOut⟩
  | loopFuel + 1, n, pwl, errPct =>
    if n < maxSeg && FP.lt (max_error k exponent allowedErrPct) errPct then
      match pivot_search f fd (n + 1) lowerBound upperBound negative
        (max_error k exponent allowedErrPct) (FP.fin (1 / 10)) cap pivotFuel with
      | .ok (segs, err) =>
        seg_loop_go k f fd exponent lowerBound upperBound allowedErrPct negative
          maxSeg cap pivotFuel loopFuel (n + 1) segs
          (calculate_error_pct f segs lowerBound upperBound err negative 500)
      | .fail e => ⟨n + 1, errPct, .fail e⟩
      | .fuelOut => ⟨n + 1, errPct, .fuelOut⟩
    else if maxSeg ≤ n then ⟨n, errPct, .fail .notConverged⟩
    else ⟨n, errPct, .ok (pwl, errPct)⟩

/-- The non-split branch of `pwl_search` (source lines 285-300): start with
`segments_number = 1`, run `pivot_search` and `calculate_error_pct`, then
the growth loop, with the trait caps passed explicitly. -/
def seg_search_with (k : ActKind) (f fd : FP → FP)
    (exponent lowerBound upperBound allowedErrPct : FP)
    (maxSeg cap pivotFuel : Nat) : SegOut :=
  match pivot_search f fd 1 lowerBound upperBound
    (is_negative k exponent upperBound)
    (max_error k exponent allowedErrPct) (FP.fin (1 / 10)) cap pivotFuel with
  | .ok (segs, err) =>
    seg_loop_go k f fd exponent lowerBound upperBound allowedErrPct
      (is_negative k exponent upperBound) maxSeg cap pivotFuel maxSeg 1 segs
      (calculate_error_pct f segs lowerBound upperBound err
        (is_negative k exponent upperBound) 500)
  | .fail e => ⟨1, 0, .fail e⟩
  | .fuelOut => ⟨1, 0, .fuelOut⟩

/-! ## pwl_search over explicit bounds (source lines 250-304) -/

/-- The sign flip `negative_pwl` of lines 262-267: negate `m` and `b` of
every segment, keeping `alpha`. -/
def negate_pwl (l : List Pwl) : List Pwl :=
  l.map (fun s => ⟨FP.neg s.m, FP.neg s.b, s.alpha⟩)

/-- `pwl_search<T>(activation_function, lower, upper, allowed_err_pct,
err_pct)` (source lines 250-304), with the recursion of the
domain-splitting branch (lines 272-274) bounded by the explicit `depth`
fuel.  `errPctIn` models the by-reference `err_pct` argument, which the
early return of line 258 leaves unchanged; the recursive calls pass fresh
zero-initialized locals (lines 269-270). -/
def pwl_search (k : ActKind) (f fd : FP → FP)
    (exponent : FP) (maxSeg cap pivotFuel : Nat) :
    Nat → FP → FP → FP → FP → PRes (List Pwl × FP)
  | 0, _, _, _, _ => .fuelOut
  | depth + 1, lowerBound, upperBound, allowedErrPct, errPctIn =>
    if FP.gt lowerBound upperBound then .ok ([], errPctIn)
    else if split_search k lowerBound upperBound then
      match pwl_search k f fd exponent maxSeg cap pivotFuel depth lowerBound
        (get_break_bound k) allowedErrPct 0 with
      | .ok (pwl1, e1) =>
        match pwl_search k f fd exponent maxSeg cap pivotFuel depth
          (get_break_bound k) upperBound allowedErrPct 0 with
        | .ok (pwl2, e2) =>
          let p1 := negate_pwl pwl1
          let p2 := if k = .exp || k = .power then negate_pwl pwl2 else pwl2
          .ok (p1.dropLast ++ p2, (e1 + e2) / 2)
        | r => r
      | r => r
    else
      (seg_search_with k f fd exponent lowerBound upperBound allowedErrPct
        maxSeg cap pivotFuel).res

/-! ## The Power node path (source lines 317-374) -/

/-- The element types of `ov::element` relevant to the exponent constant. -/
inductive ElemType where
  | i8 : ElemType
  | i16 : ElemType
  | i32 : ElemType
  | i64 : ElemType
  | u8 : ElemType
  | u16 : ElemType
  | u32 : ElemType
  | u64 : ElemType
  | f16 : ElemType
  | f32 : ElemType
  | f64 : ElemType
  | bf16 : ElemType
  | boolType : ElemType
deriving DecidableEq, Repr

/-- The exponent constant operand: its element type and its scalar values
(the numeric reinterpretation performed by `Constant::get_vector<A>` is not
modelled; the values are taken as given). -/
structure ConstantNode where
  elemType : ElemType
  values : List FP
deriving DecidableEq, Repr

/-- The type tuple of lines 350-356, in source order. -/
def accepted_exponent_types : List ElemType :=
  [.i32, .i64, .u32, .u64, .f16, .f32, .f64]

/-- The `get_exponent` overload chain (source lines 317-342) together with
the failure throw of lines 350-360: try each type of the tuple in order;
on the first match extract the scalar, throwing `sizeError` when the
constant does not hold exactly one element (lines 321-323); when no type of
the tuple matches, throw `unsupportedType` (line 359). -/
def get_exponent (c : ConstantNode) : PRes FP :=
  match accepted_exponent_types.find? (fun t => c.elemType = t) with
  | some _ =>
    match c.values with
    | [v] => .ok v
    | _ => .fail .sizeError
  | none => .fail .unsupportedType

/-- Modelled from the spec: `details::are_floats_equal` (header not in the
staged sources) — equality within an ULP tolerance; embedded as
`|a - b| ≤ 2⁻⁵²`, one ULP at 1.0. -/
def are_floats_equal (a b : FP) : Bool :=
  FP.le (a - b).abs (FP.fin (1 / 4503599627370496))

/-- The `alpha` of the first identity segment: `INT32_MIN` (line 364). -/
def int32_min_fp : FP := FP.fin (-2147483648)

/-- The `alpha` of the identity sentinel: `INT32_MAX` (line 365). -/
def int32_max_fp : FP := FP.fin 2147483647

/-- Modelled from the spec: `details::lower_bound<Power>(exponent)` (header
not in the staged sources) — a clipped lower bound depending on the
exponent, 0 for a fractional exponent.  No theorem below depends on the
finite value chosen here. -/
def power_lower_bound (exponent : FP) : FP :=
  if FP.feq (fmodOne exponent) 0 then FP.fin (-16) else 0

/-- Modelled from the spec: `details::upper_bound<Power>()` (header not in
the staged sources).  No theorem below depends on the value. -/
def power_upper_bound : FP := FP.fin 16

/-- The specialization `pwl_search<Power>` over a node (source lines
344-374): extract the exponent from the constant operand; when it equals 1
within the ULP tolerance return the identity PWL
`(m, b, alpha) = (1, 0, INT32_MIN)` then `(0, 0, INT32_MAX)` directly
(lines 362-367), leaving `err_pct` unchanged; otherwise delegate to the
generic search over the canonical Power domain.  `f` and `fd` stand for
`details::Function<Power>(exponent, 1, 0)`. -/
def pwl_search_power_node (c : ConstantNode) (f fd : FP → FP)
    (allowedErrPct errPctIn : FP) (maxSeg cap pivotFuel depth : Nat) :
    PRes (List Pwl × FP) :=
  match get_exponent c with
  | .fail e => .fail e
  | .fuelOut => .fuelOut
  | .ok exponent =>
    if are_floats_equal exponent 1 then
      .ok ([⟨1, 0, int32_min_fp⟩, ⟨0, 0, int32_max_fp⟩], errPctIn)
    else
      pwl_search .power f fd exponent maxSeg cap pivotFuel depth
        (power_lower_bound exponent) power_upper_bound allowedErrPct errPctIn

/-- The tail of `transpose_to_pwl` (source lines 389-394): given the result
of the node-level search, return `false` (leave the node untouched) when
fewer than two segments came back, `true` (node replaced) otherwise; errors
propagate. -/
def transpose_to_pwl_result (res : PRes (List Pwl × FP)) : PRes Bool :=
  match res with
  | .ok (segs, _) => .ok (decide (2 ≤ segs.length))
  | .fail e => .fail e
  | .fuelOut => .fuelOut

/-! ## Concrete activation instances and probe data used by the claims -/

/-- Modelled from the spec: `details::Function<Power>(2, 1, 0)` — the value
of `y = (1*x + 0)^2`.  Squaring is exact in the embedding and, for the small
dyadic inputs used below, in `double`. -/
def powerSquareF : FP → FP := fun x => x * x

/-- Modelled from the spec: the first derivative of
`details::Function<Power>(2, 1, 0)`, `y = 2x`. -/
def powerSquareD : FP → FP := fun x => 2 * x

/-- The constant-zero function, used as a trivially well-defined
activation-function parameter where the value does not matter. -/
def zeroFn : FP → FP := fun _ => 0

/-- An activation value table with a pole: the value at `3/4` is `-∞`
(as, for instance, the Log activation has at 0).  All other values dyadic. -/
def probeF4 : FP → FP := fun x =>
  if x = FP.fin (1 / 2) then 2
  else if x = FP.fin (3 / 4) then FP.ninf
  else if x = FP.fin (5 / 8) then 1 else 0

/-- The derivative table paired with `probeF4`. -/
def probeD4 : FP → FP := fun x => if x = FP.fin (1 / 2) then 2 else 0

/-- The `epsilon` column the next pass of `pivot_search` evaluates from a
state: the guard of lines 100-109 reads exactly these values. -/
def stepEps (f fd : FP → FP) (alpha0 alphaN : FP) (negative : Bool)
    (s : PivotState) : List FP :=
  let tcol := s.tcols.getD s.j []
  epsCol f fd (sgnOf negative) tcol (alphaCol f fd alpha0 alphaN tcol)

/-- The state reached after one pass of `pivot_search` on `probeF4` with
`N = 1` over `[0, 1]` (checked below): `t[0][1] = 3/4`, where `probeF4`
takes the value `-∞`. -/
def probeState4 : PivotState :=
  ⟨1, 1, false, 3, [[FP.fin (1 / 2)], [FP.fin (3 / 4)]],
   [[0, 1]], [[1, 3]]⟩

theorem FP.lt_asymm' {a b : FP} (h : FP.lt a b = true) : FP.lt b a = false := by
  cases a <;> cases b <;> simp_all [FP.lt] <;> exact le_of_lt h

theorem FP.lt_trans' {a b c : FP} (hab : FP.lt a b = true) (hbc : FP.lt b c = true) :
    FP.lt a c = true := by
  cases a <;> cases b <;> cases c <;> simp_all [FP.lt] <;> exact lt_trans hab hbc

theorem split_search_iff (k : ActKind) (lowerBound upperBound : FP) :
    split_search k lowerBound upperBound = true ↔
      ((k = .sigmoid ∨ k = .tanh ∨ k = .softsign ∨ k = .exp ∨ k = .power) ∧
        FP.lt lowerBound (get_break_bound k) = true ∧
        FP.gt upperBound (get_break_bound k) = true) := by
  by_cases hg : FP.gt lowerBound upperBound = true
  · constructor
    · intro h
      cases k <;> simp [split_search, hg] at h
    · rintro ⟨hk, h1, h2⟩
      simp only [FP.gt] at hg h2
      rw [FP.lt_asymm' (FP.lt_trans' h1 h2)] at hg
      exact absurd hg (by simp)
  · rw [Bool.not_eq_true] at hg
    cases k <;> simp [split_search, hg, get_break_bound, FP.gt] <;>
      exact fun h1 h2 => FP.lt_asymm' (FP.lt_trans' h1 h2)

theorem FP.add_fin (a b : ℚ) : FP.fin a + FP.fin b = FP.fin (a + b) := rfl

theorem FP.sub_fin (a b : ℚ) : FP.fin a - FP.fin b = FP.fin (a - b) := by
  show FP.add (FP.fin a) (FP.neg (FP.fin b)) = FP.fin (a - b)
  simp [FP.add, FP.neg, sub_eq_add_neg]

theorem FP.mul_fin (a b : ℚ) : FP.fin a * FP.fin b = FP.fin (a * b) := rfl

theorem FP.div_fin (a b : ℚ) (hb : b ≠ 0) : FP.fin a / FP.fin b = FP.fin (a / b) := by
  show FP.div (FP.fin a) (FP.fin b) = FP.fin (a / b)
  simp [FP.div, hb]

theorem FP.lt_fin (a b : ℚ) : FP.lt (FP.fin a) (FP.fin b) = decide (a < b) := rfl

theorem ratTrunc_eq_num {q : ℚ} (h : q.den = 1) : (ratTrunc q : ℚ) = q := by
  have hq : (q.num : ℚ) = q := (Rat.den_eq_one_iff q).mp h
  have hfl : ∀ a : ℚ, a.floor = ⌊a⌋ := fun a => by rw [Rat.floor_def', Rat.floor_def]
  unfold ratTrunc
  split
  · rw [hfl, ← hq, show -(q.num : ℚ) = ((-q.num : ℤ) : ℚ) by push_cast; ring,
      Int.floor_intCast]
    push_cast
    simp [hq]
  · rw [hfl, ← hq, Int.floor_intCast, hq]

theorem feq_fmodOne_zero_iff (q : ℚ) :
    FP.feq (fmodOne (FP.fin q)) 0 = true ↔ q.den = 1 := by
  have h0 : (0 : FP) = FP.fin 0 := rfl
  simp only [fmodOne, h0, FP.feq, decide_eq_true_eq, FP.fin.injEq, sub_eq_zero]
  constructor
  · intro h
    rw [h]
    exact Rat.den_intCast _
  · intro h
    exact (ratTrunc_eq_num h).symm

theorem pass_domainError_iff (f fd : FP → FP) (alpha0 alphaN : FP) (negative : Bool)
    (threshold : FP) (cap : Nat) (s : PivotState) :
    pivotStep f fd alpha0 alphaN negative threshold cap s = .fail .domainError ↔
      (stepEps f fd alpha0 alphaN negative s).any FP.isnan = true := by
  unfold pivotStep stepEps
  by_cases h : (epsCol f fd (sgnOf negative) (s.tcols.getD s.j [])
      (alphaCol f fd alpha0 alphaN (s.tcols.getD s.j []))).any FP.isnan = true
  · simp only [h]
    simp
  · simp only [Bool.not_eq_true] at h
    simp only [h]
    rw [if_neg Bool.false_ne_true]
    constructor
    · intro hcon
      revert hcon
      split
      · split <;> simp
      · simp
    · intro hcon
      simp at hcon

theorem pass_notConverged_iff (f fd : FP → FP) (alpha0 alphaN : FP) (negative : Bool)
    (threshold : FP) (cap : Nat) (s : PivotState)
    (hnan : (stepEps f fd alpha0 alphaN negative s).any FP.isnan = false) :
    pivotStep f fd alpha0 alphaN negative threshold cap s = .fail .notConverged ↔
      s.j = cap := by
  unfold pivotStep
  unfold stepEps at hnan
  simp only [hnan]
  rw [if_neg Bool.false_ne_true]
  by_cases hc : s.j = cap
  · simp [hc]
  · constructor
    · intro hcon
      revert hcon
      split
      · split
        · simp_all
        · simp
      · simp
    · intro hcon
      exact absurd hcon hc

theorem seg_loop_exit_notConverged (k : ActKind) (f fd : FP → FP)
    (exponent lowerBound upperBound allowedErrPct : FP) (negative : Bool)
    (maxSeg cap pivotFuel fuel n : Nat) (pwl : List Pwl) (errPct : FP)
    (hn : maxSeg ≤ n) :
    seg_loop_go k f fd exponent lowerBound upperBound allowedErrPct negative
      maxSeg cap pivotFuel (fuel + 1) n pwl errPct =
      ⟨n, errPct, .fail .notConverged⟩ := by
  unfold seg_loop_go
  have h1 : (n < maxSeg) = False := by simp [Nat.not_lt.mpr hn]
  simp [h1, hn]

set_option maxRecDepth 8192

theorem foldl_max_of_le (dev : FP → FP) (m : FP) :
    ∀ l : List FP, (∀ x ∈ l, FP.lt m (dev x) = false) →
      l.foldl (fun mx x => if FP.lt mx (dev x) then dev x else mx) m = m := by
  intro l
  induction l with
  | nil => intro _; rfl
  | cons x t ih =>
    intro h
    simp only [List.foldl_cons]
    rw [h x (List.mem_cons_self x t), if_neg Bool.false_ne_true]
    exact ih (fun y hy => h y (List.mem_cons_of_mem _ hy))

theorem refEval_two (mv bv a0 a1 x : FP) :
    referencePwlEval [mv] [bv] [a0, a1] x = mv * x + bv := by
  unfold referencePwlEval
  rw [show List.range (List.length [mv]) = [0] from rfl]
  simp only [List.foldl_cons, List.foldl_nil, ite_self]
  rfl

theorem c2_dev_le_q (q : ℚ) (hq0 : 0 ≤ q) (hq1 : q ≤ 1) :
    FP.lt (FP.fin (1 / 8))
      ((powerSquareF (FP.fin q) -
        sgnOf true * referencePwlEval [FP.fin (-1)] [FP.fin (1 / 8)] [FP.fin 0, FP.fin 1]
          (FP.fin q)).abs) = false := by
  rw [refEval_two]
  show FP.lt (FP.fin (1 / 8))
    ((FP.fin q * FP.fin q - FP.fin (-1) * (FP.fin (-1) * FP.fin q + FP.fin (1 / 8))).abs) = false
  rw [FP.mul_fin, FP.mul_fin, FP.add_fin, FP.mul_fin, FP.sub_fin]
  show FP.lt (FP.fin (1 / 8)) (FP.fin |q * q - -1 * (-1 * q + 1 / 8)|) = false
  rw [FP.lt_fin]
  simp only [decide_eq_false_iff_not, not_lt]
  rw [abs_le]
  constructor
  · nlinarith [sq_nonneg (q - 1 / 2)]
  · nlinarith [mul_nonneg hq0 (sub_nonneg.mpr hq1)]

theorem c2_sample_dev_le (i : Nat) (hi : i < 500) :
    FP.lt (FP.fin (1 / 8))
      ((powerSquareF (FP.fin 0 + FP.fin (i : ℚ) * (FP.fin (1 - 0) / FP.fin 501)) -
        sgnOf true * referencePwlEval [FP.fin (-1)] [FP.fin (1 / 8)] [FP.fin 0, FP.fin 1]
          (FP.fin 0 + FP.fin (i : ℚ) * (FP.fin (1 - 0) / FP.fin 501))).abs) = false := by
  rw [FP.div_fin _ _ (by norm_num), FP.mul_fin, FP.add_fin]
  apply c2_dev_le_q
  · positivity
  · have h5 : (i : ℚ) ≤ 500 := by exact_mod_cast hi.le
    nlinarith

theorem c2_calc (offset : FP) :
    calculate_error_pct powerSquareF
      [⟨FP.fin (-1), FP.fin (1 / 8), 0⟩, ⟨0, 0, 1⟩] 0 1 offset true 500 = FP.fin (1 / 8) := by
  unfold calculate_error_pct
  lift_lets
  extract_lets sgn delta ms bs alphas dev
  have hcond : FP.lt delta 0 = false := by with_unfolding_all decide
  rw [hcond, if_neg Bool.false_ne_true]
  have hseed : (powerSquareF 0 -
      sgn * referencePwlEval ms bs alphas (0 + FP.fin ((0 : Nat) : ℚ) * delta)).abs =
      FP.fin (1 / 8) := by
    with_unfolding_all decide
  rw [hseed]
  apply foldl_max_of_le
  intro x hx
  simp only [errorSamples, List.mem_map, List.mem_range] at hx
  obtain ⟨i, hi, rfl⟩ := hx
  show FP.lt (FP.fin (1 / 8))
    ((powerSquareF (0 + FP.fin (i : ℚ) * ((1 - 0) / FP.fin (((500 : Nat) : ℚ) + 1))) -
      sgnOf true * referencePwlEval [FP.fin (-1)] [FP.fin (1 / 8)] [FP.fin 0, FP.fin 1]
        (0 + FP.fin (i : ℚ) * ((1 - 0) / FP.fin (((500 : Nat) : ℚ) + 1)))).abs) = false
  rw [show ((1 : FP) - 0) = FP.fin (1 - 0) from by with_unfolding_all decide,
    show FP.fin (((500 : Nat) : ℚ) + 1) = FP.fin 501 from by norm_num,
    show ((0 : FP)) = FP.fin 0 from rfl]
  exact c2_sample_dev_le i hi

theorem c2_pivot :
    pivot_search powerSquareF powerSquareD 1 0 1 (is_negative .power 2 1)
      (max_error .power 2 10) (FP.fin (1 / 10)) 2000 10 =
      .ok ([⟨FP.fin (-1), FP.fin (1 / 8), 0⟩, ⟨0, 0, 1⟩], FP.fin (1 / 8)) := by
  with_unfolding_all decide

theorem c2_seg_search :
    seg_search_with .power powerSquareF powerSquareD 2 0 1 10 1 2000 10 =
      ⟨1, FP.fin (1 / 8), .fail .notConverged⟩ := by
  unfold seg_search_with
  rw [c2_pivot]
  show seg_loop_go .power powerSquareF powerSquareD 2 0 1 10 (is_negative .power 2 1)
      1 2000 10 1 1 [⟨FP.fin (-1), FP.fin (1 / 8), 0⟩, ⟨0, 0, 1⟩]
      (calculate_error_pct powerSquareF [⟨FP.fin (-1), FP.fin (1 / 8), 0⟩, ⟨0, 0, 1⟩]
        0 1 (FP.fin (1 / 8)) (is_negative .power 2 1) 500) =
    ⟨1, FP.fin (1 / 8), .fail .notConverged⟩
  rw [show is_negative .power 2 1 = true from by with_unfolding_all decide, c2_calc]
  exact seg_loop_exit_notConverged .power powerSquareF powerSquareD 2 0 1 10 true
    1 2000 10 0 1 _ _ (le_refl 1)

/-- C2 (amended): the completion branch of `pivot_search` raises
`NotConverged` exactly when it runs with `j` equal to the iteration cap —
whether or not the spread test passes there (source line 138 throws
unconditionally inside the completion branch); and the outer segment search
raises `NotConverged` whenever its loop exits with `segments_number` at or
above `max_segments_number` — whether or not the sampled error meets the
budget (source lines 298-300). -/
theorem C2_cap_behavior :
    (∀ (f fd : FP → FP) (alpha0 alphaN : FP) (negative : Bool) (threshold : FP)
      (cap : Nat) (s : PivotState),
      (stepEps f fd alpha0 alphaN negative s).any FP.isnan = false →
      (pivotStep f fd alpha0 alphaN negative threshold cap s = .fail .notConverged ↔
        s.j = cap)) ∧
    (∀ (k : ActKind) (f fd : FP → FP)
      (exponent lowerBound upperBound allowedErrPct : FP) (negative : Bool)
      (maxSeg cap pivotFuel fuel n : Nat) (pwl : List Pwl) (errPct : FP),
      maxSeg ≤ n →
      seg_loop_go k f fd exponent lowerBound upperBound allowedErrPct negative
        maxSeg cap pivotFuel (fuel + 1) n pwl errPct =
        ⟨n, errPct, .fail .notConverged⟩) :=
  ⟨fun f fd alpha0 alphaN negative threshold cap s hnan =>
    pass_notConverged_iff f fd alpha0 alphaN negative threshold cap s hnan,
   fun k f fd exponent lowerBound upperBound allowedErrPct negative
      maxSeg cap pivotFuel fuel n pwl errPct hn =>
    seg_loop_exit_notConverged k f fd exponent lowerBound upperBound allowedErrPct
      negative maxSeg cap pivotFuel fuel n pwl errPct hn⟩

/-- C2 counterexample, refuting "reaching either cap while the corresponding
test is satisfied does not fail".  Pivot side: for the Power p = 2 function
on `[0, 1]` with `N = 1` the spread test holds at the very first iteration
(the two signed errors are both 1/4), yet with the iteration cap reached
there the search throws `NotConverged` (the trait `max_iterations` is
modelled from the spec and instantiated 0 here to make the cap reachable;
`C2_cap_behavior` covers every cap value).  Outer side: the complete outer
search for that input — pivot converges with one segment, the sampled error
over the 500 samples is 1/8 (proved symbolically in `c2_calc`), it meets
the budget 10 (conjunct four) — with `max_segments_number` instantiated 1,
and the search still throws. -/
theorem C2_counterexample :
    spread_ok (FP.fin (1 / 10))
      (colMaxAbs (stepEps powerSquareF powerSquareD 0 1 true (pivotInit 1 0 1)))
      (colMinAbs (stepEps powerSquareF powerSquareD 0 1 true (pivotInit 1 0 1))) = true ∧
    pivotLoop powerSquareF powerSquareD 0 1 true (FP.fin (1 / 10)) 0 1
      (pivotInit 1 0 1) = .fail .notConverged ∧
    seg_search_with .power powerSquareF powerSquareD 2 0 1 10 1 2000 10 =
      ⟨1, FP.fin (1 / 8), .fail .notConverged⟩ ∧
    FP.lt (max_error .power 2 10) (FP.fin (1 / 8)) = false := by
  refine ⟨?_, ?_, c2_seg_search, ?_⟩ <;> with_unfolding_all decide

/-- C3 (amended): a call with `lower > upper` does not fail at all: the
search returns the empty segment list with `err_pct` passed through, and
`transpose_to_pwl` then returns `false` (fewer than two segments) without
raising any error.  No `InvalidDomain` error exists in the source — the
only throws are the four of `PwlErr` — and NaN bounds are not rejected
up front either (see the counterexample). -/
theorem C3_invalid_domain_behavior (k : ActKind) (f fd : FP → FP) (exponent : FP)
    (maxSeg cap pivotFuel depth : Nat)
    (lowerBound upperBound allowedErrPct errPctIn : FP)
    (h : FP.gt lowerBound upperBound = true) :
    pwl_search k f fd exponent maxSeg cap pivotFuel (depth + 1) lowerBound upperBound
      allowedErrPct errPctIn = .ok ([], errPctIn) ∧
    transpose_to_pwl_result (pwl_search k f fd exponent maxSeg cap pivotFuel (depth + 1)
      lowerBound upperBound allowedErrPct errPctIn) = .ok false := by
  have h1 : pwl_search k f fd exponent maxSeg cap pivotFuel (depth + 1) lowerBound
      upperBound allowedErrPct errPctIn = .ok ([], errPctIn) := by
    unfold pwl_search
    rw [if_pos h]
  refine ⟨h1, ?_⟩
  rw [h1]
  simp [transpose_to_pwl_result]

/-- C3 witness: the theorem applied at the concrete bounds `L = 1 > U = 0`. -/
theorem C3_witness :
    pwl_search .sigmoid zeroFn zeroFn 0 128 2000 1 (1 + 1) (FP.fin 1) 0
      (FP.fin (1 / 100)) 0 = .ok ([], 0) ∧
    transpose_to_pwl_result (pwl_search .sigmoid zeroFn zeroFn 0 128 2000 1 (1 + 1)
      (FP.fin 1) 0 (FP.fin (1 / 100)) 0) = .ok false :=
  C3_invalid_domain_behavior .sigmoid zeroFn zeroFn 0 128 2000 1 1 (FP.fin 1) 0
    (FP.fin (1 / 100)) 0 (by with_unfolding_all decide)

/-- C3 counterexample: with `L = 1 > U = 0` the facade returns the empty
list successfully and the transformation reports `false` — no error of any
kind, in particular no `InvalidDomain`, is raised; and with a NaN lower
bound the search is not rejected up front: it proceeds into the pivot
iteration and (for this function pair) ends in `DomainError`, again not an
`InvalidDomain`. -/
theorem C3_counterexample :
    pwl_search .sigmoid zeroFn zeroFn 0 128 2000 1 2 (FP.fin 1) 0
      (FP.fin (1 / 100)) 0 = .ok ([], 0) ∧
    transpose_to_pwl_result (pwl_search .sigmoid zeroFn zeroFn 0 128 2000 1 2
      (FP.fin 1) 0 (FP.fin (1 / 100)) 0) = .ok false ∧
    pwl_search .sigmoid zeroFn zeroFn 0 128 2000 2 2 FP.nan (FP.fin 1)
      (FP.fin (1 / 100)) 0 = .fail .domainError := by
  refine ⟨?_, ?_, ?_⟩ <;> with_unfolding_all decide

/-- C4 (amended): during `pivot_search`, `DomainError` is raised at an
iteration exactly when one of the evaluated signed errors `epsilon[i]` is
NaN — the guard of source lines 100-109 is `std::isnan`, so an infinite
`epsilon[i]` does not raise it. -/
theorem C4_nan_guard (f fd : FP → FP) (alpha0 alphaN : FP) (negative : Bool)
    (threshold : FP) (cap : Nat) (s : PivotState) :
    pivotStep f fd alpha0 alphaN negative threshold cap s = .fail .domainError ↔
      (stepEps f fd alpha0 alphaN negative s).any FP.isnan = true :=
  pass_domainError_iff f fd alpha0 alphaN negative threshold cap s

/-- C4 counterexample: a run with the real iteration cap 2000 in which the
second iteration evaluates both signed errors as `-∞` (the value table has a
pole at `t = 3/4`, as Log has at 0) — they are infinite and not NaN, so no
`DomainError` is raised — and the regress step then reverts the iteration,
after which the run converges and returns segments successfully.  This
refutes "any non-finite ε raises DomainError": only NaN does. -/
theorem C4_counterexample :
    pivotStep probeF4 probeD4 0 1 false (FP.fin (1 / 10)) 2000 (pivotInit 1 0 1) =
      .next probeState4 ∧
    (stepEps probeF4 probeD4 0 1 false probeState4).any FP.isinf = true ∧
    (stepEps probeF4 probeD4 0 1 false probeState4).any FP.isnan = false ∧
    pivotLoop probeF4 probeD4 0 1 false (FP.fin (1 / 10)) 2000 4 (pivotInit 1 0 1) =
      .ok ([⟨0, FP.fin (1 / 2), 0⟩, ⟨0, 0, 1⟩], FP.fin (1 / 2)) := by
  refine ⟨?_, ?_, ?_, ?_⟩ <;> with_unfolding_all decide

/-- C5 (amended): `is_negative` returns true for Exp always; for Sigmoid,
Tanh and SoftSign exactly when the upper bound compares equal to 0; for
Power exactly when `fmod(exponent, 1.0) == 0`, that is when the exponent is
a finite integer — regardless of its parity (even and odd integer exponents
give the same answer); and false for Log and PowerIE. -/
theorem C5_is_negative_characterization :
    (∀ e u : FP, is_negative .exp e u = true) ∧
    (∀ e u : FP, is_negative .sigmoid e u = FP.feq u 0) ∧
    (∀ e u : FP, is_negative .tanh e u = FP.feq u 0) ∧
    (∀ e u : FP, is_negative .softsign e u = FP.feq u 0) ∧
    (∀ e u : FP, is_negative .power e u = FP.feq (fmodOne e) 0) ∧
    (∀ (q : ℚ) (u : FP), is_negative .power (FP.fin q) u = true ↔ q.den = 1) ∧
    (∀ e u : FP, is_negative .log e u = false) ∧
    (∀ e u : FP, is_negative .powerIE e u = false) :=
  ⟨fun _ _ => rfl, fun _ _ => rfl, fun _ _ => rfl, fun _ _ => rfl, fun _ _ => rfl,
   fun q _ => feq_fmodOne_zero_iff q, fun _ _ => rfl, fun _ _ => rfl⟩

/-- C5 counterexample: the Power result does not depend on the parity of an
integer exponent — the even exponent 2 and the odd exponent 3 both give
`true` (and the non-integer 1/2 gives `false`); the dependence-on-parity
reading of the claim, stated as an iff, is refuted at `p = 2, q = 3`. -/
theorem C5_counterexample :
    (¬ ∀ p q : ℤ,
      (is_negative .power (FP.fin (p : ℚ)) 0 = is_negative .power (FP.fin (q : ℚ)) 0 ↔
        p % 2 = q % 2)) ∧
    is_negative .power (FP.fin 2) 0 = true ∧
    is_negative .power (FP.fin 3) 0 = true ∧
    is_negative .power (FP.fin (1 / 2)) 0 = false := by
  refine ⟨?_, ?_, ?_, ?_⟩
  · intro hcl
    have h23 := (hcl 2 3).mp (by with_unfolding_all decide)
    omega
  · with_unfolding_all decide
  · with_unfolding_all decide
  · with_unfolding_all decide

/-- C6: when the extracted Power exponent equals 1 within the ULP tolerance,
the node-level search short-circuits — for every activation-function pair,
budget and trait values it returns exactly the identity PWL, the two
segments `(m, b, alpha) = (1, 0, INT32_MIN)` and `(0, 0, INT32_MAX)`,
leaving `err_pct` unchanged and never invoking the generic pipeline. -/
theorem C6_power_identity_shortcut (c : ConstantNode) (f fd : FP → FP)
    (allowedErrPct errPctIn : FP) (maxSeg cap pivotFuel depth : Nat) (exponent : FP)
    (hexp : get_exponent c = .ok exponent)
    (hone : are_floats_equal exponent 1 = true) :
    pwl_search_power_node c f fd allowedErrPct errPctIn maxSeg cap pivotFuel depth =
      .ok ([⟨1, 0, int32_min_fp⟩, ⟨0, 0, int32_max_fp⟩], errPctIn) := by
  unfold pwl_search_power_node
  rw [hexp]
  simp only [hone]
  simp

/-- C6 witness: a concrete `f32` constant holding the single value 1. -/
theorem C6_witness :
    pwl_search_power_node ⟨.f32, [1]⟩ zeroFn zeroFn (FP.fin (1 / 100)) 0 128 2000 1 1 =
      .ok ([⟨1, 0, int32_min_fp⟩, ⟨0, 0, int32_max_fp⟩], 0) :=
  C6_power_identity_shortcut ⟨.f32, [1]⟩ zeroFn zeroFn (FP.fin (1 / 100)) 0 128 2000
    1 1 1 (by with_unfolding_all decide) (by with_unfolding_all decide)

/-- C7: the domain-splitting branch is taken exactly for Sigmoid, Tanh,
SoftSign, Exp and Power and exactly when the lower bound is strictly below
the break point and the upper bound strictly above it; the break point is
`0.045 = 9/200` for Exp and 0 for the others. -/
theorem C7_split_eligibility (k : ActKind) (lowerBound upperBound : FP) :
    (split_search k lowerBound upperBound = true ↔
      ((k = .sigmoid ∨ k = .tanh ∨ k = .softsign ∨ k = .exp ∨ k = .power) ∧
        FP.lt lowerBound (get_break_bound k) = true ∧
        FP.gt upperBound (get_break_bound k) = true)) ∧
    get_break_bound .exp = FP.fin (9 / 200) ∧
    get_break_bound .sigmoid = 0 ∧ get_break_bound .tanh = 0 ∧
    get_break_bound .softsign = 0 ∧ get_break_bound .power = 0 :=
  ⟨split_search_iff k lowerBound upperBound, rfl, rfl, rfl, rfl, rfl⟩

/-- C8 (amended): the Power exponent constant is accepted exactly when its
element type is one of `i32, i64, u32, u64, f16, f32, f64` and it holds
exactly one element; any other element type — including the narrow integer
widths `i8, i16, u8, u16`, which the original claim asserted accepted — is
rejected with the unsupported-type error, and a matching type with a
different element count is rejected with the size error. -/
theorem C8_exponent_type_dispatch :
    (∀ (c : ConstantNode) (e : FP), get_exponent c = .ok e ↔
      c.elemType ∈ accepted_exponent_types ∧ c.values = [e]) ∧
    (∀ c : ConstantNode, get_exponent c = .fail .unsupportedType ↔
      c.elemType ∉ accepted_exponent_types) ∧
    (∀ c : ConstantNode, get_exponent c = .fail .sizeError ↔
      c.elemType ∈ accepted_exponent_types ∧ c.values.length ≠ 1) := by
  refine ⟨?_, ?_, ?_⟩ <;> intro c <;>
    obtain ⟨ty, vals⟩ := c <;>
    cases ty <;>
    simp [get_exponent, accepted_exponent_types] <;>
    rcases vals with _ | ⟨v, _ | ⟨w, rest⟩⟩ <;>
    simp

/-- C8 counterexample: a single-element `i8` constant — a signed integer
width below 64 bits, accepted according to the claim — is rejected with
the unsupported-type error, as are `i16`, `u8` and `u16`. -/
theorem C8_counterexample :
    get_exponent ⟨.i8, [FP.fin 1]⟩ = .fail .unsupportedType ∧
    get_exponent ⟨.i16, [FP.fin 1]⟩ = .fail .unsupportedType ∧
    get_exponent ⟨.u8, [FP.fin 1]⟩ = .fail .unsupportedType ∧
    get_exponent ⟨.u16, [FP.fin 1]⟩ = .fail .unsupportedType := by
  refine ⟨?_, ?_, ?_, ?_⟩ <;> with_unfolding_all decide

/-- C9: the search is deterministic — two runs on the identical input
produce the identical result.  The embedding is a pure function of its
arguments because the source routine reads no global or otherwise hidden
state: its only inputs are the activation object, the bounds, the error
budget and the trait constants. -/
theorem C9_deterministic (k : ActKind) (f fd : FP → FP) (exponent : FP)
    (maxSeg cap pivotFuel depth : Nat)
    (lowerBound upperBound allowedErrPct errPctIn : FP) :
    pwl_search k f fd exponent maxSeg cap pivotFuel depth lowerBound upperBound
      allowedErrPct errPctIn =
    pwl_search k f fd exponent maxSeg cap pivotFuel depth lowerBound upperBound
      allowedErrPct errPctIn := rfl

/-- C10: every input sampled by the error metric over finite bounds equals
`lower + i * ((upper - lower) / 501)` for some `i < 500` (`samples = 500`,
the value the call sites pass), and whenever `lower < upper` every sample
lies strictly below the upper bound — so the reported maximum deviation
never accounts for the value at the upper domain edge. -/
theorem C10_error_sampling (l u : ℚ) (x : FP)
    (hx : x ∈ errorSamples (FP.fin l) (FP.fin u) 500) :
    (∃ i : Nat, i < 500 ∧ x = FP.fin (l + i * ((u - l) / 501))) ∧
    (l < u → FP.lt x (FP.fin u) = true) := by
  simp only [errorSamples, List.mem_map, List.mem_range] at hx
  obtain ⟨i, hi, hxe⟩ := hx
  have h501 : ((500 : Nat) : ℚ) + 1 = 501 := by norm_num
  rw [h501, FP.sub_fin, FP.div_fin _ _ (by norm_num), FP.mul_fin, FP.add_fin] at hxe
  constructor
  · exact ⟨i, hi, hxe.symm⟩
  · intro hlu
    rw [← hxe, FP.lt_fin]
    simp only [decide_eq_true_eq]
    have hi501 : (i : ℚ) < 501 := by
      have h500 : (i : ℚ) < 500 := by exact_mod_cast hi
      linarith
    have hpos : 0 < (u - l) / 501 := div_pos (sub_pos.mpr hlu) (by norm_num)
    have h2 : (i : ℚ) * ((u - l) / 501) < 501 * ((u - l) / 501) :=
      mul_lt_mul_of_pos_right hi501 hpos
    have h3 : (501 : ℚ) * ((u - l) / 501) = u - l := by field_simp
    linarith

/-- C10 witness: the sample at index 0 of the domain `[0, 1]`. -/
theorem C10_witness :
    ((∃ i : Nat, i < 500 ∧ (FP.fin 0 : FP) = FP.fin (0 + i * ((1 - 0) / 501))) ∧
      ((0 : ℚ) < 1 → FP.lt (FP.fin 0) (FP.fin 1) = true)) :=
  C10_error_sampling 0 1 (FP.fin 0) (by with_unfolding_all decide)

end GNAPwl
